import Mathlib

/-!
Shallow embedding of the WebSocket chat server (Lwithw/Web-Socket).

The embedding translates the room/presence/typing/rate-limit core of the
two server entry points:
  * the enhanced server (`src/unnamed/part_002`, imported as modules
    `rate-limit` = `src/unnamed/part_004`, `redis` = second half of
    `src/unnamed/part_003`, `security` = `src/websocket-demo/security.ts`);
  * the demo server (`src/websocket-demo/server.ts`), whose
    `group_message` branch has no counterpart in the enhanced server.

JavaScript `Map`s are modelled as association lists with `Map.set`
replace-in-place semantics, JavaScript `Set`s as duplicate-free lists with
insertion order (`add` appends when absent, `delete` filters).  Connections
are opaque handles, modelled as `Nat` ids.  External collaborators
(message store, block-list check, durable queue) are oracles passed in a
record: per the spec they are out of scope, the router only consumes their
success/failure and returned data.  Socket sends are collected in an
output list `(destination, event)`; handlers never invoke a connection
close, which the model makes structural (there is no close effect).
-/

namespace WsChat

/-- Opaque connection handle (`ServerWebSocket`), identified by a stable id. -/
abbrev Conn := Nat

/-! ### JavaScript `Map` as an association list -/

/-- `Map.get`: first (and by construction only) binding of the key. -/
def mapGet [DecidableEq κ] : List (κ × β) → κ → Option β
  | [], _ => none
  | (k, v) :: rest, key => if k = key then some v else mapGet rest key

/-- `Map.set`: replace the binding in place if the key exists, else append
(JavaScript preserves insertion order on overwrite). -/
def mapSet [DecidableEq κ] : List (κ × β) → κ → β → List (κ × β)
  | [], key, val => [(key, val)]
  | (k, v) :: rest, key, val =>
    if k = key then (k, val) :: rest else (k, v) :: mapSet rest key val

/-- `Map.delete`: drop every binding of the key. -/
def mapDel [DecidableEq κ] (m : List (κ × β)) (key : κ) : List (κ × β) :=
  m.filter (fun kv => kv.1 ≠ key)

@[simp] theorem mapGet_nil [DecidableEq κ] (key : κ) :
    mapGet ([] : List (κ × β)) key = none := rfl

theorem mapGet_cons [DecidableEq κ] (k : κ) (v : β) (rest : List (κ × β)) (key : κ) :
    mapGet ((k, v) :: rest) key = if k = key then some v else mapGet rest key := rfl

@[simp] theorem mapGet_mapSet_self [DecidableEq κ] (m : List (κ × β)) (k : κ) (v : β) :
    mapGet (mapSet m k v) k = some v := by
  induction m with
  | nil => simp [mapSet, mapGet]
  | cons kv rest ih =>
    obtain ⟨k', v'⟩ := kv
    by_cases h : k' = k
    · subst h; simp [mapSet, mapGet]
    · simp [mapSet, mapGet, h, ih]

@[simp] theorem mapGet_mapSet_ne [DecidableEq κ] (m : List (κ × β)) (k k' : κ) (v : β)
    (h : k ≠ k') : mapGet (mapSet m k v) k' = mapGet m k' := by
  induction m with
  | nil => simp [mapSet, mapGet, h]
  | cons kv rest ih =>
    obtain ⟨k₀, v₀⟩ := kv
    by_cases h₀ : k₀ = k
    · subst h₀; simp [mapSet, mapGet, h]
    · simp [mapSet, mapGet, h₀, ih]

theorem mapDel_cons [DecidableEq κ] (k : κ) (v : β) (rest : List (κ × β)) (key : κ) :
    mapDel ((k, v) :: rest) key =
      if k = key then mapDel rest key else (k, v) :: mapDel rest key := by
  by_cases h : k = key <;> simp [mapDel, List.filter_cons, h]

@[simp] theorem mapGet_mapDel_self [DecidableEq κ] (m : List (κ × β)) (k : κ) :
    mapGet (mapDel m k) k = none := by
  induction m with
  | nil => rfl
  | cons kv rest ih =>
    obtain ⟨k₀, v₀⟩ := kv
    rw [mapDel_cons]
    by_cases h₀ : k₀ = k
    · rw [if_pos h₀]; exact ih
    · rw [if_neg h₀, mapGet_cons, if_neg h₀]; exact ih

@[simp] theorem mapGet_mapDel_ne [DecidableEq κ] (m : List (κ × β)) (k k' : κ)
    (h : k ≠ k') : mapGet (mapDel m k) k' = mapGet m k' := by
  induction m with
  | nil => rfl
  | cons kv rest ih =>
    obtain ⟨k₀, v₀⟩ := kv
    rw [mapDel_cons]
    by_cases h₀ : k₀ = k
    · have hne : ¬ k₀ = k' := by rw [h₀]; exact h
      rw [if_pos h₀, mapGet_cons, if_neg hne]; exact ih
    · rw [if_neg h₀, mapGet_cons, mapGet_cons]
      by_cases h₁ : k₀ = k'
      · rw [if_pos h₁, if_pos h₁]
      · rw [if_neg h₁, if_neg h₁]; exact ih

/-- Writing back the value a key already holds leaves the map unchanged. -/
theorem mapSet_self [DecidableEq κ] (m : List (κ × β)) (k : κ) (v : β)
    (h : mapGet m k = some v) : mapSet m k v = m := by
  induction m with
  | nil => simp [mapGet] at h
  | cons kv rest ih =>
    obtain ⟨k₀, v₀⟩ := kv
    by_cases h₀ : k₀ = k
    · subst h₀
      simp [mapGet] at h
      simp [mapSet, h]
    · simp [mapGet, h₀] at h
      simp [mapSet, h₀, ih h]

/-! ### JavaScript `Set` as a duplicate-free list -/

/-- `Set.add`: append when absent (JavaScript keeps the original position
of an element that is re-added). -/
def setAdd [DecidableEq α] (xs : List α) (x : α) : List α :=
  if x ∈ xs then xs else xs ++ [x]

/-- `Set.delete`. -/
def setDel [DecidableEq α] (xs : List α) (x : α) : List α :=
  xs.filter (fun y => y ≠ x)

@[simp] theorem mem_setAdd [DecidableEq α] (xs : List α) (x y : α) :
    y ∈ setAdd xs x ↔ y ∈ xs ∨ y = x := by
  unfold setAdd
  by_cases h : x ∈ xs
  · simp only [if_pos h]
    constructor
    · exact Or.inl
    · rintro (hy | rfl) <;> [exact hy; exact h]
  · simp [if_neg h]

@[simp] theorem mem_setDel [DecidableEq α] (xs : List α) (x y : α) :
    y ∈ setDel xs x ↔ y ∈ xs ∧ y ≠ x := by
  simp [setDel]

theorem setAdd_ne_nil [DecidableEq α] (xs : List α) (x : α) :
    setAdd xs x ≠ [] := by
  unfold setAdd
  by_cases h : x ∈ xs
  · simp only [if_pos h]
    rintro rfl; exact absurd h (List.not_mem_nil x)
  · simp [if_neg h]

theorem setAdd_of_mem [DecidableEq α] (xs : List α) (x : α) (h : x ∈ xs) :
    setAdd xs x = xs := by
  simp [setAdd, h]

theorem setDel_of_not_mem [DecidableEq α] (xs : List α) (x : α) (h : x ∉ xs) :
    setDel xs x = xs := by
  unfold setDel
  apply List.filter_eq_self.mpr
  intro a ha
  have hax : a ≠ x := fun hax => h (hax ▸ ha)
  simp [hax]

/-! ### Validation and sanitisation (`src/websocket-demo/security.ts`) -/

/-- Character class of the regex `[a-zA-Z0-9_-]`. -/
def isIdChar (c : Char) : Bool :=
  c.isAlpha || c.isDigit || c = '_' || c = '-'

/-- Character class of the regex `[a-zA-Z0-9_\s-]` (room names allow
whitespace). -/
def isRoomChar (c : Char) : Bool :=
  c.isAlpha || c.isDigit || c = '_' || c = '-' || c.isWhitespace

/-- `isValidUserId`: `/^[a-zA-Z0-9_-]{1,255}$/` (stated over the
character list so it evaluates by kernel reduction). -/
def isValidUserId (s : String) : Bool :=
  decide (1 ≤ s.data.length) && decide (s.data.length ≤ 255) && s.data.all isIdChar

/-- `isValidUsername`: `/^[a-zA-Z0-9_-]{1,50}$/`. -/
def isValidUsername (s : String) : Bool :=
  decide (1 ≤ s.data.length) && decide (s.data.length ≤ 50) && s.data.all isIdChar

/-- `isValidRoomName`: `/^[a-zA-Z0-9_\s-]{1,100}$/`. -/
def isValidRoomName (s : String) : Bool :=
  decide (1 ≤ s.data.length) && decide (s.data.length ≤ 100) && s.data.all isRoomChar

/-- The control characters `sanitizeInput` strips: `\x00-\x08`, `\x0B`,
`\x0C`, `\x0E-\x1F`, `\x7F` (the null-byte strip is subsumed). -/
def isStrippedCtrl (c : Char) : Bool :=
  let n := c.toNat
  decide (n ≤ 8) || decide (n = 11) || decide (n = 12) ||
    (decide (14 ≤ n) && decide (n ≤ 31)) || decide (n = 127)

/-- JavaScript `String.prototype.trim`: drop leading and trailing
whitespace. -/
def trimChars (l : List Char) : List Char :=
  ((l.dropWhile Char.isWhitespace).reverse.dropWhile Char.isWhitespace).reverse

/-- `.trim()` on a string value. -/
def jsTrim (s : String) : String :=
  String.mk (trimChars s.data)

/-- `sanitizeInput`: trim, cap the length, drop null bytes and control
characters other than newline and tab. -/
def sanitizeInput (input : String) (maxLength : Nat) : String :=
  String.mk (((trimChars input.data).take maxLength).filter (fun c => !isStrippedCtrl c))

theorem isValidUserId_ne_empty (s : String) (h : isValidUserId s = true) : s ≠ "" := by
  intro hs
  subst hs
  simp [isValidUserId] at h

/-! ### Server data model (`src/unnamed/part_002` module-level state) -/

/-- `clientData` entry: the Identity bound to a connection at `join`. -/
structure UserData where
  username : String
  userId : String
deriving Repr, DecidableEq

/-- The process-wide mutable maps of the server module:
`rooms`, `clientRooms`, `clientData`, `userIdToSocket`, `typingUsers`. -/
structure ServerState where
  rooms : List (String × List Conn)
  clientRooms : List (Conn × List String)
  clientData : List (Conn × UserData)
  userIdToSocket : List (String × Conn)
  typingUsers : List (String × List String)
deriving Repr, DecidableEq

/-- State at process start: every map empty. -/
def initState : ServerState :=
  { rooms := [], clientRooms := [], clientData := [], userIdToSocket := [],
    typingUsers := [] }

/-- Process-level configuration flags (`redisEnabled`, `useRabbitMQ`),
fixed after startup. -/
structure Config where
  redisEnabled : Bool
  useRabbitMQ : Bool
deriving Repr, DecidableEq

/-- Events the server writes to sockets.  Fields are the ones the claims
inspect; external-store echo fields (server-assigned id, timestamps) are
omitted as out-of-scope collaborator data. -/
inductive OutEvent where
  | userJoined (username roomName : String) (userCount : Nat)
  | userLeft (username roomName : String) (userCount : Nat)
  | typingEvt (roomName : String) (users : List String)
  | errorEvt (message : String)
  | leftEvt (room : String)
  | joinedEvt (room : String) (users : List String) (userId : String) (pendingDMs : Nat)
  | messageEvt (roomName username content : String)
  | dmEvt (fromId fromUsername content : String)
  | dmSent (toId : String) (delivered : Bool) (content : String)
  | groupMessageEvt (fromId fromUsername groupName content : String)
  | groupMessageSent (groupName : String) (sentCount offlineCount : Nat)
      (offlineRecipients : List String)
  | roomListEvt (rooms : List (String × Nat))
  | userListEvt (room : String) (users : List String)
  | signalEvt (fromId : String)
  | signalSent (toId : String) (ok : Bool) (viaRelay : Bool)
  | messageStarred (messageId : Nat)
  | messagePinned (messageId : Nat) (pinnedBy : String)
deriving Repr, DecidableEq

/-- A send: destination socket and the event written to it. -/
abbrev Output := Conn × OutEvent

/-- A relay publication (`publishBroadcast` hand-off): room and payload. -/
abbrev RelayPub := String × OutEvent

/-! ### Room registry (`part_002` lines 27–146) -/

/-- `broadcastToRoom(roomName, data, exclude?, fromRedis)`: serialize once,
send to every member except the excluded one (per-member send failures are
caught and skipped in the source, so each member receives an attempt), and
republish on the relay when Redis is enabled and the event did not itself
arrive from Redis. -/
def broadcastToRoom (cfg : Config) (s : ServerState) (roomName : String)
    (data : OutEvent) (exclude : Option Conn) (fromRedis : Bool) :
    List Output × List RelayPub :=
  match mapGet s.rooms roomName with
  | none => ([], [])
  | some clients =>
    let sends := (clients.filter (fun c => some c ≠ exclude)).map (fun c => (c, data))
    let pubs := if cfg.redisEnabled && !fromRedis then [(roomName, data)] else []
    (sends, pubs)

/-- `joinRoom(ws, roomName, username)`: create the room when absent, add
the connection to the room and the room to the connection's tracked set,
then broadcast `user_joined` with the updated count to the other members. -/
def joinRoom (cfg : Config) (s : ServerState) (ws : Conn)
    (roomName username : String) : ServerState × List Output × List RelayPub :=
  let rooms1 := if (mapGet s.rooms roomName).isSome then s.rooms
                else mapSet s.rooms roomName []
  let clients := (mapGet rooms1 roomName).getD []
  let clients1 := setAdd clients ws
  let rooms2 := mapSet rooms1 roomName clients1
  let tracked := (mapGet s.clientRooms ws).getD []
  let clientRooms1 := mapSet s.clientRooms ws (setAdd tracked roomName)
  let s1 := { s with rooms := rooms2, clientRooms := clientRooms1 }
  let (sends, pubs) := broadcastToRoom cfg s1 roomName
    (.userJoined username roomName clients1.length) (some ws) false
  (s1, sends, pubs)

/-- `leaveRoom(ws, roomName)`: no-op when the room does not exist;
otherwise remove the connection from the room and the room from the
connection's tracked set, delete the room when it became empty, else
broadcast `user_left` with the updated count. -/
def leaveRoom (cfg : Config) (s : ServerState) (ws : Conn) (roomName : String) :
    ServerState × List Output × List RelayPub :=
  match mapGet s.rooms roomName with
  | none => (s, [], [])
  | some clients =>
    let clients1 := setDel clients ws
    let clientRooms1 :=
      match mapGet s.clientRooms ws with
      | none => s.clientRooms
      | some tracked => mapSet s.clientRooms ws (setDel tracked roomName)
    let username := ((mapGet s.clientData ws).map (·.username)).getD "Anonymous"
    if clients1.length = 0 then
      ({ s with rooms := mapDel s.rooms roomName, clientRooms := clientRooms1 },
       [], [])
    else
      let s1 := { s with rooms := mapSet s.rooms roomName clients1,
                         clientRooms := clientRooms1 }
      let (sends, pubs) := broadcastToRoom cfg s1 roomName
        (.userLeft username roomName clients1.length) none false
      (s1, sends, pubs)

/-- `getOnlineUsers(roomName)`: usernames of the room's members that have
registered client data. -/
def getOnlineUsers (s : ServerState) (roomName : String) : List String :=
  match mapGet s.rooms roomName with
  | none => []
  | some clients => clients.filterMap (fun c => (mapGet s.clientData c).map (·.username))

/-- `getRoomList()`: every room with its member count. -/
def getRoomList (s : ServerState) : List (String × Nat) :=
  s.rooms.map (fun nr => (nr.1, nr.2.length))

/-- `setTyping(roomName, username, isTyping)`: toggle membership in the
room's typing set and broadcast the full current list. -/
def setTyping (cfg : Config) (s : ServerState) (roomName username : String)
    (isTyping : Bool) : ServerState × List Output × List RelayPub :=
  let cur := (mapGet s.typingUsers roomName).getD []
  let cur1 := if isTyping then setAdd cur username else setDel cur username
  let s1 := { s with typingUsers := mapSet s.typingUsers roomName cur1 }
  let (sends, pubs) := broadcastToRoom cfg s1 roomName (.typingEvt roomName cur1) none false
  (s1, sends, pubs)

/-- One iteration of the close-time cascade: leave one room, accumulating
the outputs. -/
def closeStep (cfg : Config) (ws : Conn)
    (acc : ServerState × List Output × List RelayPub) (r : String) :
    ServerState × List Output × List RelayPub :=
  let (s', o, p) := acc
  let (s'', o', p') := leaveRoom cfg s' ws r
  (s'', o ++ o', p ++ p')

/-- `websocket.close(ws)` (`part_002` lines 977–992): leave every tracked
room, then delete the presence entry for the connection's recorded
userId.  The source iterates the live `Set` while `leaveRoom` deletes the
current element, which visits exactly the original elements; the model
snapshots the list first, which is equivalent. -/
def handleClose (cfg : Config) (s : ServerState) (ws : Conn) :
    ServerState × List Output × List RelayPub :=
  let userRooms := (mapGet s.clientRooms ws).getD []
  let folded := userRooms.foldl (closeStep cfg ws) (s, [], [])
  let s1 := folded.1
  let s2 :=
    match mapGet s1.clientData ws with
    | some d => { s1 with userIdToSocket := mapDel s1.userIdToSocket d.userId }
    | none => s1
  (s2, folded.2.1, folded.2.2)

/-- The state component of the cascade, as a fold over states. -/
def leaveAll (cfg : Config) (ws : Conn) (s : ServerState) (L : List String) :
    ServerState :=
  L.foldl (fun s' r => (leaveRoom cfg s' ws r).1) s

/-! ### External collaborators as oracles

The message store, the block-list check and the durable queue are external
collaborators (spec §1): the router only consumes their results.  `saveOk`
stands for `messageManager.saveMessage` succeeding (a throw produces the
handler's generic error reply); `pendingDMs` is the store's undelivered
backlog replayed at `join`. -/
structure Ext where
  isBlocked : String → String → Bool
  saveOk : Bool
  historyLen : Nat
  pendingDMs : List OutEvent

/-! ### Message-router branches (`part_002` lines 492–975) -/

/-- Inbound event kinds, post JSON extraction: each constructor carries the
fields the corresponding branch reads, already coerced with `String(...)`
and defaulted.  `group_message` exists only in the demo server and falls
through every `else if` of the enhanced server. -/
inductive InEvent where
  | join (username userId room : String)
  | leave (room : String)
  | message (room content : String)
  | dm (recipientId content : String)
  | groupMessage (recipientIds : List String) (content groupName : String)
  | signal (toId : String) (payloadOk : Bool)
  | typing (room : String) (isTyping : Bool)
  | messageSeen (messageId : Nat)
  | starMessage (messageId : Nat)
  | pinMessage (messageId : Nat) (room : String)
  | getRooms
  | getUsers (room : String)
deriving Repr, DecidableEq

/-- `join` branch (`part_002` 492–548): sanitize and validate, bind the
Identity, register presence (last join wins), join the room, reply
`joined`, then replay pending messages from the store. -/
def handleJoin (cfg : Config) (ext : Ext) (s : ServerState) (ws : Conn)
    (usernameRaw userIdRaw roomRaw : String) :
    ServerState × List Output × List RelayPub :=
  let username := sanitizeInput usernameRaw 50
  let roomName := sanitizeInput roomRaw 100
  let userId := userIdRaw
  if !isValidUsername username then
    (s, [(ws, .errorEvt "Invalid username format")], [])
  else if !isValidRoomName roomName then
    (s, [(ws, .errorEvt "Invalid room name format")], [])
  else if !isValidUserId userId then
    (s, [(ws, .errorEvt "Invalid userId format")], [])
  else
    let s1 := { s with clientData := mapSet s.clientData ws ⟨username, userId⟩,
                       userIdToSocket := mapSet s.userIdToSocket userId ws }
    let (s2, sends, pubs) := joinRoom cfg s1 ws roomName username
    let joined : Output := (ws, .joinedEvt roomName (getOnlineUsers s2 roomName)
      userId ext.pendingDMs.length)
    (s2, sends ++ [joined] ++ ext.pendingDMs.map (fun e => (ws, e)), pubs)

/-- `message` branch (`part_002` 558–596): requires Identity; rejects empty
content and invalid room; persists then broadcasts the saved message. -/
def handleMessage (cfg : Config) (ext : Ext) (s : ServerState) (ws : Conn)
    (roomRaw contentRaw : String) : ServerState × List Output × List RelayPub :=
  match mapGet s.clientData ws with
  | none => (s, [(ws, .errorEvt "Not authenticated. Please join first.")], [])
  | some u =>
    let content := sanitizeInput (jsTrim contentRaw) 5000
    let roomName := sanitizeInput roomRaw 100
    if content = "" then (s, [(ws, .errorEvt "Content required")], [])
    else if !isValidRoomName roomName then
      (s, [(ws, .errorEvt "Invalid room name")], [])
    else if !ext.saveOk then (s, [(ws, .errorEvt "Failed to save message")], [])
    else
      let (sends, pubs) := broadcastToRoom cfg s roomName
        (.messageEvt roomName u.username content) none false
      (s, sends, pubs)

/-- `dm` branch (`part_002` 599–690): requires Identity; validates the
recipient id and non-empty content; refuses blocked pairs; persists; then
either delivers to the local socket and acks `status=delivered`, or (no
local socket) acks `status=offline` after an optional queue hand-off.  The
presence lookup happens before the store write in the source; both are
effect-free on the maps, so the order is immaterial. -/
def handleDm (ext : Ext) (s : ServerState) (ws : Conn)
    (recipientId contentRaw : String) : ServerState × List Output :=
  match mapGet s.clientData ws with
  | none => (s, [(ws, .errorEvt "Not authenticated")])
  | some u =>
    let content := sanitizeInput (jsTrim contentRaw) 5000
    if !isValidUserId recipientId then
      (s, [(ws, .errorEvt "Invalid recipientId format")])
    else if recipientId = "" || content = "" then
      (s, [(ws, .errorEvt "recipientId and content required")])
    else if ext.isBlocked u.userId recipientId then
      (s, [(ws, .errorEvt "Cannot send message to this user")])
    else if !ext.saveOk then
      (s, [(ws, .errorEvt "Failed to send DM")])
    else
      match mapGet s.userIdToSocket recipientId with
      | none => (s, [(ws, .dmSent recipientId false content)])
      | some rsock =>
        (s, [(rsock, .dmEvt u.userId u.username content),
             (ws, .dmSent recipientId true content)])

/-- `signal` branch (`part_002` 693–734): requires Identity; validates;
forwards to a local socket, else publishes via Redis when enabled, else
replies a "Recipient not connected" error.  The relay publication is
returned as the `Bool` flag of `signalSent` plus a pub marker. -/
def handleSignal (cfg : Config) (s : ServerState) (ws : Conn)
    (toId : String) (payloadOk : Bool) : ServerState × List Output :=
  match mapGet s.clientData ws with
  | none => (s, [(ws, .errorEvt "Not authenticated")])
  | some u =>
    if !isValidUserId toId then
      (s, [(ws, .errorEvt "Invalid recipientId format")])
    else if !payloadOk then
      (s, [(ws, .errorEvt "Missing signal payload")])
    else
      match mapGet s.userIdToSocket toId with
      | none =>
        if cfg.redisEnabled then (s, [(ws, .signalSent toId true true)])
        else (s, [(ws, .errorEvt "Recipient not connected")])
      | some rsock =>
        (s, [(rsock, .signalEvt u.userId), (ws, .signalSent toId true false)])

/-- `typing` branch (`part_002` 786–794): without Identity the branch
silently returns; with one it toggles the typing set and broadcasts. -/
def handleTyping (cfg : Config) (s : ServerState) (ws : Conn)
    (roomRaw : String) (isTyping : Bool) : ServerState × List Output × List RelayPub :=
  match mapGet s.clientData ws with
  | none => (s, [], [])
  | some u => setTyping cfg s roomRaw u.username isTyping

/-- `message_seen` branch (`part_002` 737–753): without Identity it
silently returns; with one it marks the store and sends nothing. -/
def handleMessageSeen (s : ServerState) (ws : Conn) (_messageId : Nat) :
    ServerState × List Output :=
  match mapGet s.clientData ws with
  | none => (s, [])
  | some _ => (s, [])

/-- `star_message` branch (`part_002` 756–766): without Identity it
silently returns; with one it toggles in the store and echoes
`message_starred`. -/
def handleStarMessage (s : ServerState) (ws : Conn) (messageId : Nat) :
    ServerState × List Output :=
  match mapGet s.clientData ws with
  | none => (s, [])
  | some _ => (s, [(ws, .messageStarred messageId)])

/-- `pin_message` branch (`part_002` 769–783): without Identity it
silently returns; with one it toggles in the store and broadcasts
`message_pinned` to the room. -/
def handlePinMessage (cfg : Config) (s : ServerState) (ws : Conn)
    (messageId : Nat) (roomRaw : String) : ServerState × List Output × List RelayPub :=
  match mapGet s.clientData ws with
  | none => (s, [], [])
  | some u =>
    let (sends, pubs) := broadcastToRoom cfg s roomRaw
      (.messagePinned messageId u.username) none false
    (s, sends, pubs)

/-- `get_rooms` branch (`part_002` 797–800): no Identity requirement; pure
read. -/
def handleGetRooms (s : ServerState) (ws : Conn) : ServerState × List Output :=
  (s, [(ws, .roomListEvt (getRoomList s))])

/-- `get_users` branch (`part_002` 803–807): no Identity requirement; pure
read. -/
def handleGetUsers (s : ServerState) (ws : Conn) (roomRaw : String) :
    ServerState × List Output :=
  (s, [(ws, .userListEvt roomRaw (getOnlineUsers s roomRaw))])

/-- The `websocket.message` dispatch chain of the enhanced server
(`part_002` 492–975), after the rate-limit gate and JSON parse (both
modelled separately).  A `group_message` frame matches no branch of this
server and falls through with no effect. -/
def handleEvent (cfg : Config) (ext : Ext) (s : ServerState) (ws : Conn) :
    InEvent → ServerState × List Output × List RelayPub
  | .join username userId room => handleJoin cfg ext s ws username userId room
  | .leave room =>
    let (s1, sends, pubs) := leaveRoom cfg s ws room
    (s1, sends ++ [(ws, .leftEvt room)], pubs)
  | .message room content => handleMessage cfg ext s ws room content
  | .dm recipientId content =>
    let (s1, sends) := handleDm ext s ws recipientId content
    (s1, sends, [])
  | .groupMessage _ _ _ => (s, [], [])
  | .signal toId payloadOk =>
    let (s1, sends) := handleSignal cfg s ws toId payloadOk
    (s1, sends, [])
  | .typing room isTyping => handleTyping cfg s ws room isTyping
  | .messageSeen messageId =>
    let (s1, sends) := handleMessageSeen s ws messageId
    (s1, sends, [])
  | .starMessage messageId =>
    let (s1, sends) := handleStarMessage s ws messageId
    (s1, sends, [])
  | .pinMessage messageId room => handlePinMessage cfg s ws messageId room
  | .getRooms =>
    let (s1, sends) := handleGetRooms s ws
    (s1, sends, [])
  | .getUsers room =>
    let (s1, sends) := handleGetUsers s ws room
    (s1, sends, [])

/-! ### Demo server `group_message` branch (`src/websocket-demo/server.ts`
lines 561–642)

The per-recipient sends sit inside one `try`/`catch` with no per-send
protection (unlike `broadcastToRoom`, which catches per member), so the
embedding takes a `sendFails` oracle: a send to a failing socket throws,
aborting the loop and producing the catch-branch error reply. -/

/-- One step of the recipient fan-out loop.  Returns
`(sentCount, offlineRecipients, outputs, aborted)`; when a send throws,
the outputs already produced stand and the rest of the list is skipped. -/
def groupFan (sendFails : Conn → Bool) (uts : List (String × Conn))
    (fromId fromUsername groupName content : String) :
    List String → Nat × List String × List Output × Bool
  | [] => (0, [], [], false)
  | rid :: rest =>
    match mapGet uts rid with
    | some rsock =>
      if sendFails rsock then (0, [], [], true)
      else
        let (n, off, outs, ab) :=
          groupFan sendFails uts fromId fromUsername groupName content rest
        (n + 1, off,
         (rsock, .groupMessageEvt fromId fromUsername groupName content) :: outs, ab)
    | none =>
      let (n, off, outs, ab) :=
        groupFan sendFails uts fromId fromUsername groupName content rest
      (n, rid :: off, outs, ab)

/-- `group_message` branch: requires Identity; rejects an empty recipient
list or empty content; persists once; fans out to each recipient found in
`userIdToSocket`, collecting the offline ones; then acks the sender with
`sentCount`, `offlineCount` and the offline list — unless a send threw,
in which case the catch sends the generic error instead.  (The demo
server trims but does not run `sanitizeInput`.) -/
def demoHandleGroupMessage (ext : Ext) (sendFails : Conn → Bool)
    (s : ServerState) (ws : Conn) (recipientIds : List String)
    (contentRaw groupName : String) : ServerState × List Output :=
  match mapGet s.clientData ws with
  | none =>
    (s, [(ws, .errorEvt "Not authenticated. Please send join message first with username and userId")])
  | some u =>
    let content := jsTrim contentRaw
    if recipientIds.length = 0 || content = "" then
      (s, [(ws, .errorEvt "recipientIds and content required")])
    else if !ext.saveOk then
      (s, [(ws, .errorEvt "Failed to send group message")])
    else
      let (sentCount, offline, outs, aborted) :=
        groupFan sendFails s.userIdToSocket u.userId u.username groupName content
          recipientIds
      if aborted then
        (s, outs ++ [(ws, .errorEvt "Failed to send group message")])
      else
        (s, outs ++ [(ws, .groupMessageSent groupName sentCount offline.length offline)])

/-! ### Redis relay (`src/unnamed/part_003`, second document, lines
225–288 of the part file) and its consumer (`part_002` lines 1002–1015) -/

/-- `RedisPayload`: the envelope relayed between processes, stamped with
the publishing process's `instanceId` in `from`. -/
inductive RedisPayload where
  | broadcast (fromId room : String) (data : OutEvent)
  | signal (fromId toId : String)
deriving Repr, DecidableEq

/-- The `from` stamp of an envelope. -/
def RedisPayload.fromId : RedisPayload → String
  | .broadcast f _ _ => f
  | .signal f _ => f

/-- `publishBroadcast(room, data)`: the envelope it publishes, stamped
with the local instance id. -/
def publishBroadcastEnvelope (instanceId room : String) (data : OutEvent) :
    RedisPayload :=
  .broadcast instanceId room data

/-- `publishSignal(to, payload)`: the envelope it publishes. -/
def publishSignalEnvelope (instanceId toId : String) : RedisPayload :=
  .signal instanceId toId

/-- The guard inside `onRedisMessage`'s subscription callback: drop
unparseable frames and any envelope stamped with the local instance id
(`if (!parsed || parsed.from === instanceId) return; handler(parsed)`). -/
def skipSelfFilter (instanceId : String) (parsed : Option RedisPayload) :
    Option RedisPayload :=
  match parsed with
  | none => none
  | some p => if p.fromId = instanceId then none else some p

/-- The re-injection handler registered by the enhanced server: a remote
broadcast is re-broadcast locally with `fromRedis = true` (so it is not
republished); a remote signal is forwarded to the local target socket when
present. -/
def redisReinject (cfg : Config) (s : ServerState) :
    RedisPayload → ServerState × List Output
  | .broadcast _ room data => (s, (broadcastToRoom cfg s room data none true).1)
  | .signal fromId toId =>
    match mapGet s.userIdToSocket toId with
    | some rsock => (s, [(rsock, .signalEvt fromId)])
    | none => (s, [])

/-- A full relay delivery at the subscribing process: self-echo guard then
re-injection. -/
def onRedisEvent (cfg : Config) (instanceId : String) (s : ServerState)
    (raw : Option RedisPayload) : ServerState × List Output :=
  match skipSelfFilter instanceId raw with
  | none => (s, [])
  | some p => redisReinject cfg s p

/-! ### Rate limiter (`src/unnamed/part_004`) -/

/-- One identity's window entry (`RateLimitStore`). -/
structure RateLimitStore where
  count : Nat
  resetTime : Nat
deriving Repr, DecidableEq

/-- `checkLimit`'s reply `{allowed, remaining, resetAt}`. -/
structure RateLimitResult where
  allowed : Bool
  remaining : Nat
  resetAt : Nat
deriving Repr, DecidableEq

/-- `RateLimiter.checkLimit` for one identity: start a fresh window when
the entry is absent or `now` is strictly past `resetTime`; increment the
count; allow while the count is within the cap.  `remaining` is clamped at
zero (`Math.max`). -/
def checkLimit (windowMs maxReq now : Nat) (entry : Option RateLimitStore) :
    RateLimitResult × RateLimitStore :=
  let e :=
    match entry with
    | none => { count := 0, resetTime := now + windowMs : RateLimitStore }
    | some e =>
      if now > e.resetTime then { count := 0, resetTime := now + windowMs } else e
  let e1 : RateLimitStore := { e with count := e.count + 1 }
  ({ allowed := e1.count ≤ maxReq, remaining := maxReq - e1.count,
     resetAt := e1.resetTime }, e1)

/-- Run a sequence of `checkLimit` calls for one identity at the given
times, collecting the results in order. -/
def checkSeq (windowMs maxReq : Nat) (times : List Nat)
    (entry : Option RateLimitStore) : List RateLimitResult × Option RateLimitStore :=
  match times with
  | [] => ([], entry)
  | t :: rest =>
    let (res, e1) := checkLimit windowMs maxReq t entry
    let (ress, e2) := checkSeq windowMs maxReq rest (some e1)
    (res :: ress, e2)

/-! ### Reachable states -/

/-- The operations that mutate room membership: registry-level join and
leave, and the close-time cascade. -/
inductive Op where
  | join (ws : Conn) (room username : String)
  | leave (ws : Conn) (room : String)
  | disconnect (ws : Conn)
deriving Repr, DecidableEq

/-- Apply one membership operation, discarding outputs. -/
def applyOp (cfg : Config) (s : ServerState) : Op → ServerState
  | .join ws room username => (joinRoom cfg s ws room username).1
  | .leave ws room => (leaveRoom cfg s ws room).1
  | .disconnect ws => (handleClose cfg s ws).1

/-- Run a sequence of membership operations from a state. -/
def runOps (cfg : Config) (ops : List Op) (s : ServerState) : ServerState :=
  ops.foldl (applyOp cfg) s

/-- A transport-level step: an inbound frame or a connection close. -/
inductive SessionStep where
  | msg (ws : Conn) (e : InEvent)
  | close (ws : Conn)
deriving Repr, DecidableEq

/-- Apply one transport-level step, discarding outputs. -/
def applyStep (cfg : Config) (ext : Ext) (s : ServerState) : SessionStep → ServerState
  | .msg ws e => (handleEvent cfg ext s ws e).1
  | .close ws => (handleClose cfg s ws).1

/-- Run a session: a sequence of frames and closes from a state. -/
def runSession (cfg : Config) (ext : Ext) (steps : List SessionStep)
    (s : ServerState) : ServerState :=
  steps.foldl (applyStep cfg ext) s

/-! ## Claim theorems -/

/-- Concrete oracle used by witnesses: no block relationships, store
writes succeed, no pending backlog. -/
def extPlain : Ext :=
  { isBlocked := fun _ _ => false, saveOk := true, historyLen := 0, pendingDMs := [] }

/-- C1: for a dm from an established Identity with non-empty (sanitised)
content, a valid recipient id, no block relationship and a successful
store write: when the recipient is in `userIdToSocket` the handler emits
exactly one `dm` event to the recipient's socket followed by one
`dm_sent` ack with `status=delivered` to the sender; when the recipient is
absent it emits a single `dm_sent` ack with `status=offline` (not an
`error` event) and no delivery event to anyone.  No map is mutated in
either case. -/
theorem dm_presence_dispatch (ext : Ext) (s : ServerState) (ws : Conn)
    (recipientId contentRaw : String) (u : UserData)
    (hauth : mapGet s.clientData ws = some u)
    (hvalid : isValidUserId recipientId = true)
    (hcontent : sanitizeInput (jsTrim contentRaw) 5000 ≠ "")
    (hblocked : ext.isBlocked u.userId recipientId = false)
    (hsave : ext.saveOk = true) :
    (∀ rsock, mapGet s.userIdToSocket recipientId = some rsock →
      handleDm ext s ws recipientId contentRaw =
        (s, [(rsock, .dmEvt u.userId u.username (sanitizeInput (jsTrim contentRaw) 5000)),
             (ws, .dmSent recipientId true (sanitizeInput (jsTrim contentRaw) 5000))]))
    ∧ (mapGet s.userIdToSocket recipientId = none →
      handleDm ext s ws recipientId contentRaw =
        (s, [(ws, .dmSent recipientId false (sanitizeInput (jsTrim contentRaw) 5000))])) := by
  have hne : recipientId ≠ "" := isValidUserId_ne_empty recipientId hvalid
  constructor
  · intro rsock hlook
    simp [handleDm, hauth, hvalid, hne, hcontent, hblocked, hsave, hlook]
  · intro hlook
    simp [handleDm, hauth, hvalid, hne, hcontent, hblocked, hsave, hlook]

/-- Witness state for C1: connection 0 is `alice`/`u1`; `u2` is online at
connection 1. -/
def dmWitnessState : ServerState :=
  { rooms := [], clientRooms := [], clientData := [(0, ⟨"alice", "u1"⟩)],
    userIdToSocket := [("u2", 1)], typingUsers := [] }

/-- Witness for C1 at a concrete state: both the delivered and (for an
absent recipient `u3`) the offline branch. -/
theorem dm_presence_dispatch_witness :
    handleDm extPlain dmWitnessState 0 "u2" "hi" =
      (dmWitnessState,
       [(1, .dmEvt "u1" "alice" (sanitizeInput (jsTrim "hi") 5000)),
        (0, .dmSent "u2" true (sanitizeInput (jsTrim "hi") 5000))]) ∧
    handleDm extPlain dmWitnessState 0 "u3" "hi" =
      (dmWitnessState, [(0, .dmSent "u3" false (sanitizeInput (jsTrim "hi") 5000))]) :=
  ⟨(dm_presence_dispatch extPlain dmWitnessState 0 "u2" "hi" ⟨"alice", "u1"⟩
      (by decide) (by decide) (by decide) (by decide) (by decide)).1 1 (by decide),
   (dm_presence_dispatch extPlain dmWitnessState 0 "u3" "hi" ⟨"alice", "u1"⟩
      (by decide) (by decide) (by decide) (by decide) (by decide)).2 (by decide)⟩

/-- C2: the subscribe callback discards any envelope whose `from` stamp
equals the local instance id before re-injection, so an envelope the local
process itself published — in particular a broadcast envelope produced by
`publishBroadcast` — is never re-delivered locally: the state is unchanged
and no socket receives anything. -/
theorem relay_self_echo_suppressed (cfg : Config) (instanceId room : String)
    (data : OutEvent) (s : ServerState) (p : RedisPayload)
    (h : p.fromId = instanceId) :
    skipSelfFilter instanceId (some p) = none ∧
    onRedisEvent cfg instanceId s (some p) = (s, []) ∧
    onRedisEvent cfg instanceId s
      (some (publishBroadcastEnvelope instanceId room data)) = (s, []) := by
  refine ⟨?_, ?_, ?_⟩
  · simp [skipSelfFilter, h]
  · simp [onRedisEvent, skipSelfFilter, h]
  · simp [onRedisEvent, skipSelfFilter, publishBroadcastEnvelope, RedisPayload.fromId]

/-- Witness for C2: a concrete self-stamped envelope is dropped. -/
theorem relay_self_echo_suppressed_witness :
    RedisPayload.fromId (.broadcast "A" "general" (.leftEvt "general")) = "A" ∧
    onRedisEvent ⟨true, false⟩ "A" initState
      (some (.broadcast "A" "general" (.leftEvt "general"))) = (initState, []) :=
  ⟨by decide,
   (relay_self_echo_suppressed ⟨true, false⟩ "A" "general" (.leftEvt "general")
      initState (.broadcast "A" "general" (.leftEvt "general")) (by decide)).2.1⟩

/-- `checkLimit` on a missing entry opens a fresh window at `now`. -/
theorem checkLimit_fresh (windowMs maxReq now : Nat) :
    checkLimit windowMs maxReq now none =
      ({ allowed := decide (1 ≤ maxReq), remaining := maxReq - 1,
         resetAt := now + windowMs }, { count := 1, resetTime := now + windowMs }) := by
  simp [checkLimit]

/-- `checkLimit` inside the window increments the count and keeps the
reset time. -/
theorem checkLimit_in_window (windowMs maxReq now : Nat) (e : RateLimitStore)
    (h : now ≤ e.resetTime) :
    checkLimit windowMs maxReq now (some e) =
      ({ allowed := decide (e.count + 1 ≤ maxReq), remaining := maxReq - (e.count + 1),
         resetAt := e.resetTime }, { count := e.count + 1, resetTime := e.resetTime }) := by
  simp [checkLimit, Nat.not_lt.mpr h]

/-- `checkLimit` strictly past the window boundary resets to a fresh
window anchored at `now`. -/
theorem checkLimit_expired (windowMs maxReq now : Nat) (e : RateLimitStore)
    (h : e.resetTime < now) :
    checkLimit windowMs maxReq now (some e) =
      ({ allowed := decide (1 ≤ maxReq), remaining := maxReq - 1,
         resetAt := now + windowMs }, { count := 1, resetTime := now + windowMs }) := by
  simp [checkLimit, h]

/-- C3: with cap 5 and a 60 s window, six checks at times `t₁ … t₆` that
stay within the window opened at `t₁`: the sixth returns
`allowed = false`; the over-cap call leaves the entry's reset time at
`t₁ + 60000` (the window is not moved); and the first check at any `t₇`
strictly past the boundary returns `allowed = true` with the count reset
to 1 and a new reset time `t₇ + 60000`. -/
theorem rate_limit_window (t1 t2 t3 t4 t5 t6 : Nat)
    (h2 : t2 ≤ t1 + 60000) (h3 : t3 ≤ t1 + 60000) (h4 : t4 ≤ t1 + 60000)
    (h5 : t5 ≤ t1 + 60000) (h6 : t6 ≤ t1 + 60000) :
    (checkSeq 60000 5 [t1, t2, t3, t4, t5, t6] none).1.getLast? =
      some { allowed := false, remaining := 0, resetAt := t1 + 60000 } ∧
    (checkSeq 60000 5 [t1, t2, t3, t4, t5, t6] none).2 =
      some { count := 6, resetTime := t1 + 60000 } ∧
    (∀ t7, t1 + 60000 < t7 →
      checkLimit 60000 5 t7 (checkSeq 60000 5 [t1, t2, t3, t4, t5, t6] none).2 =
        ({ allowed := true, remaining := 4, resetAt := t7 + 60000 },
         { count := 1, resetTime := t7 + 60000 })) := by
  have hseq : checkSeq 60000 5 [t1, t2, t3, t4, t5, t6] none =
      ([{ allowed := true, remaining := 4, resetAt := t1 + 60000 },
        { allowed := true, remaining := 3, resetAt := t1 + 60000 },
        { allowed := true, remaining := 2, resetAt := t1 + 60000 },
        { allowed := true, remaining := 1, resetAt := t1 + 60000 },
        { allowed := true, remaining := 0, resetAt := t1 + 60000 },
        { allowed := false, remaining := 0, resetAt := t1 + 60000 }],
       some { count := 6, resetTime := t1 + 60000 }) := by
    simp [checkSeq, checkLimit, Nat.not_lt.mpr h2, Nat.not_lt.mpr h3,
      Nat.not_lt.mpr h4, Nat.not_lt.mpr h5, Nat.not_lt.mpr h6]
  refine ⟨by rw [hseq]; rfl, by rw [hseq], ?_⟩
  intro t7 h7
  rw [hseq]
  simpa using checkLimit_expired 60000 5 t7 { count := 6, resetTime := t1 + 60000 } h7

/-- Witness for C3 at concrete times: six checks at time 0, the seventh at
time 60001. -/
theorem rate_limit_window_witness :
    (checkSeq 60000 5 [0, 0, 0, 0, 0, 0] none).1.getLast? =
      some { allowed := false, remaining := 0, resetAt := 60000 } ∧
    checkLimit 60000 5 60001 (checkSeq 60000 5 [0, 0, 0, 0, 0, 0] none).2 =
      ({ allowed := true, remaining := 4, resetAt := 120001 },
       { count := 1, resetTime := 120001 }) :=
  ⟨(rate_limit_window 0 0 0 0 0 0 (by decide) (by decide) (by decide) (by decide)
      (by decide)).1,
   (rate_limit_window 0 0 0 0 0 0 (by decide) (by decide) (by decide)
      (by decide) (by decide)).2.2 60001 (by decide)⟩

/-- Recognizer for `error` replies. -/
def isErrorOut : OutEvent → Bool
  | .errorEvt _ => true
  | _ => false

/-- C4 counterexample: a `typing` frame on a connection with no
established Identity produces no reply at all — in particular not the
exactly-one `error` reply the claim requires — from the concrete initial
state. -/
theorem unauth_typing_silent_cex :
    (handleEvent ⟨false, false⟩ extPlain initState 0 (.typing "general" true)) =
      (initState, [], []) ∧
    ((handleEvent ⟨false, false⟩ extPlain initState 0
        (.typing "general" true)).2.1.countP (fun o => isErrorOut o.2)) ≠ 1 := by
  decide

/-- C4 amended: on a connection with no Identity, the kinds `message`,
`dm` and `signal` (and `group_message` in the demo server) reply exactly
one `error` and mutate nothing; `typing`, `message_seen`, `star_message`
and `pin_message` are silently dropped (no reply, no mutation);
`get_rooms` and `get_users` answer normally without requiring an
Identity.  No branch closes the connection (the model has no close
effect in any handler). -/
theorem unauth_event_behavior (cfg : Config) (ext : Ext) (s : ServerState)
    (ws : Conn) (hauth : mapGet s.clientData ws = none) :
    (∀ room content, handleEvent cfg ext s ws (.message room content) =
      (s, [(ws, .errorEvt "Not authenticated. Please join first.")], [])) ∧
    (∀ rid content, handleEvent cfg ext s ws (.dm rid content) =
      (s, [(ws, .errorEvt "Not authenticated")], [])) ∧
    (∀ toId ok, handleEvent cfg ext s ws (.signal toId ok) =
      (s, [(ws, .errorEvt "Not authenticated")], [])) ∧
    (∀ room isTyping, handleEvent cfg ext s ws (.typing room isTyping) = (s, [], [])) ∧
    (∀ mid, handleEvent cfg ext s ws (.messageSeen mid) = (s, [], [])) ∧
    (∀ mid, handleEvent cfg ext s ws (.starMessage mid) = (s, [], [])) ∧
    (∀ mid room, handleEvent cfg ext s ws (.pinMessage mid room) = (s, [], [])) ∧
    (handleEvent cfg ext s ws .getRooms =
      (s, [(ws, .roomListEvt (getRoomList s))], [])) ∧
    (∀ room, handleEvent cfg ext s ws (.getUsers room) =
      (s, [(ws, .userListEvt room (getOnlineUsers s room))], [])) ∧
    (∀ rids content gn, handleEvent cfg ext s ws (.groupMessage rids content gn) =
      (s, [], [])) ∧
    (∀ sendFails rids content gn,
      demoHandleGroupMessage ext sendFails s ws rids content gn =
        (s, [(ws, .errorEvt "Not authenticated. Please send join message first with username and userId")])) := by
  refine ⟨?_, ?_, ?_, ?_, ?_, ?_, ?_, ?_, ?_, ?_, ?_⟩
  · intro room content; simp [handleEvent, handleMessage, hauth]
  · intro rid content; simp [handleEvent, handleDm, hauth]
  · intro toId ok; simp [handleEvent, handleSignal, hauth]
  · intro room isTyping; simp [handleEvent, handleTyping, hauth]
  · intro mid; simp [handleEvent, handleMessageSeen, hauth]
  · intro mid; simp [handleEvent, handleStarMessage, hauth]
  · intro mid room; simp [handleEvent, handlePinMessage, hauth]
  · simp [handleEvent, handleGetRooms]
  · intro room; simp [handleEvent, handleGetUsers]
  · intro rids content gn; simp [handleEvent]
  · intro sendFails rids content gn; simp [demoHandleGroupMessage, hauth]

/-- Witness for C4's amended statement at the initial state. -/
theorem unauth_event_behavior_witness :
    handleEvent ⟨false, false⟩ extPlain initState 0 (.dm "u9" "hi") =
      (initState, [(0, .errorEvt "Not authenticated")], []) ∧
    handleEvent ⟨false, false⟩ extPlain initState 0 (.typing "general" false) =
      (initState, [], []) ∧
    handleEvent ⟨false, false⟩ extPlain initState 0 .getRooms =
      (initState, [(0, .roomListEvt (getRoomList initState))], []) :=
  ⟨(unauth_event_behavior ⟨false, false⟩ extPlain initState 0 (by decide)).2.1 "u9" "hi",
   (unauth_event_behavior ⟨false, false⟩ extPlain initState 0
      (by decide)).2.2.2.1 "general" false,
   (unauth_event_behavior ⟨false, false⟩ extPlain initState 0 (by decide)).2.2.2.2.2.2.2.1⟩

/-- Concrete state for C6: `alice` (conn 0) and `bob` (conn 1) are both
members of `lobby`. -/
def rejoinState : ServerState :=
  { rooms := [("lobby", [0, 1])],
    clientRooms := [(0, ["lobby"]), (1, ["lobby"])],
    clientData := [(0, ⟨"alice", "u1"⟩), (1, ⟨"bob", "u2"⟩)],
    userIdToSocket := [("u1", 0), ("u2", 1)], typingUsers := [] }

/-- C6 counterexample: a second `joinRoom` by an existing member does
broadcast another `user_joined` to the other member (with the unchanged
count), which the claim rules out. -/
theorem rejoin_notifies_cex :
    (joinRoom ⟨false, false⟩ rejoinState 0 "lobby" "alice").2.1 =
      [(1, .userJoined "alice" "lobby" 2)] ∧
    ((joinRoom ⟨false, false⟩ rejoinState 0 "lobby" "alice").2.1.countP
      (fun o => match o.2 with | .userJoined _ _ _ => true | _ => false)) ≠ 0 := by
  decide

/-- C6 amended: a re-join by an existing member leaves the member count
unchanged — in fact the whole state is unchanged — but still broadcasts a
`user_joined` event carrying the unchanged count to every other member. -/
theorem rejoin_state_unchanged (cfg : Config) (s : ServerState) (ws : Conn)
    (roomName username : String) (ms : List Conn) (tracked : List String)
    (hroom : mapGet s.rooms roomName = some ms) (hmem : ws ∈ ms)
    (htrackGet : mapGet s.clientRooms ws = some tracked)
    (htrack : roomName ∈ tracked) :
    (joinRoom cfg s ws roomName username).1 = s ∧
    (joinRoom cfg s ws roomName username).2.1 =
      (ms.filter (fun c => c ≠ ws)).map
        (fun c => (c, OutEvent.userJoined username roomName ms.length)) := by
  have hsome : (mapGet s.rooms roomName).isSome := by rw [hroom]; rfl
  have hadd : setAdd ms ws = ms := setAdd_of_mem ms ws hmem
  have haddT : setAdd tracked roomName = tracked := setAdd_of_mem tracked roomName htrack
  have hrooms : mapSet s.rooms roomName ms = s.rooms := mapSet_self _ _ _ hroom
  have htracked : mapSet s.clientRooms ws tracked = s.clientRooms :=
    mapSet_self _ _ _ htrackGet
  constructor
  · simp [joinRoom, hsome, hroom, hadd, haddT, hrooms, htrackGet, htracked]
  · simp only [joinRoom, hsome, if_true, hroom, Option.getD_some, hadd, haddT,
      hrooms, htrackGet, htracked]
    simp [broadcastToRoom, hroom]
    rw [hadd]

/-- Witness for C6's amended statement at the concrete two-member state. -/
theorem rejoin_state_unchanged_witness :
    (joinRoom ⟨false, false⟩ rejoinState 0 "lobby" "alice").1 = rejoinState ∧
    (joinRoom ⟨false, false⟩ rejoinState 0 "lobby" "alice").2.1 =
      (([0, 1] : List Conn).filter (fun c => c ≠ 0)).map
        (fun c => (c, OutEvent.userJoined "alice" "lobby" 2)) :=
  rejoin_state_unchanged ⟨false, false⟩ rejoinState 0 "lobby" "alice" [0, 1] ["lobby"]
    (by decide) (by decide) (by decide) (by decide)

/-- Concrete state for C7: `bob` (conn 1) alone in `lobby`; conn 0 is not
a member and has no client data. -/
def nonMemberLeaveState : ServerState :=
  { rooms := [("lobby", [1])], clientRooms := [(1, ["lobby"])],
    clientData := [(1, ⟨"bob", "u2"⟩)], userIdToSocket := [("u2", 1)],
    typingUsers := [] }

/-- C7 counterexample: `leaveRoom` for a connection that is not a member
of the (existing, non-empty) room still broadcasts `user_left` to the
room's members, which the claim rules out. -/
theorem leave_nonmember_notifies_cex :
    (leaveRoom ⟨false, false⟩ nonMemberLeaveState 0 "lobby").2.1 =
      [(1, .userLeft "Anonymous" "lobby" 1)] ∧
    (leaveRoom ⟨false, false⟩ nonMemberLeaveState 0 "lobby").2.1 ≠ [] := by
  decide

/-- C7 amended: leaving a room the connection is not in leaves every map
unchanged; when the room does not exist nothing is sent, but when the
room exists (non-empty) a `user_left` event with the unchanged member
count is still broadcast to all its members. -/
theorem leave_nonmember_frame (cfg : Config) (s : ServerState) (ws : Conn)
    (roomName : String)
    (hmem : ∀ ms, mapGet s.rooms roomName = some ms → ws ∉ ms ∧ ms ≠ [])
    (hnt : ∀ tracked, mapGet s.clientRooms ws = some tracked → roomName ∉ tracked) :
    (leaveRoom cfg s ws roomName).1 = s ∧
    (mapGet s.rooms roomName = none → (leaveRoom cfg s ws roomName).2.1 = []) ∧
    (∀ ms, mapGet s.rooms roomName = some ms →
      (leaveRoom cfg s ws roomName).2.1 =
        ms.map (fun c => (c, OutEvent.userLeft
          (((mapGet s.clientData ws).map (·.username)).getD "Anonymous")
          roomName ms.length))) := by
  cases hr : mapGet s.rooms roomName with
  | none =>
    refine ⟨by simp [leaveRoom, hr], fun _ => by simp [leaveRoom, hr], ?_⟩
    intro ms hms; exact Option.noConfusion hms
  | some ms =>
    obtain ⟨hws, hne⟩ := hmem ms hr
    have hdel : setDel ms ws = ms := setDel_of_not_mem ms ws hws
    have hcr : (match mapGet s.clientRooms ws with
        | none => s.clientRooms
        | some tracked => mapSet s.clientRooms ws (setDel tracked roomName)) =
        s.clientRooms := by
      cases ht : mapGet s.clientRooms ws with
      | none => rfl
      | some tracked =>
        have : setDel tracked roomName = tracked :=
          setDel_of_not_mem tracked roomName (hnt tracked ht)
        simp [this, mapSet_self _ _ _ ht]
    have hrooms : mapSet s.rooms roomName ms = s.rooms := mapSet_self _ _ _ hr
    refine ⟨?_, ?_, ?_⟩
    · simp [leaveRoom, hr, hdel, hcr, hrooms, hne]
    · intro h0; exact Option.noConfusion h0
    · intro ms' hms'
      injection hms' with hms
      subst hms
      simp [leaveRoom, hr, hdel, hcr, hrooms, hne, broadcastToRoom]

/-- Witness for C7's amended statement at the concrete state. -/
theorem leave_nonmember_frame_witness :
    (leaveRoom ⟨false, false⟩ nonMemberLeaveState 0 "lobby").1 = nonMemberLeaveState ∧
    (leaveRoom ⟨false, false⟩ nonMemberLeaveState 0 "lobby").2.1 =
      ([1] : List Conn).map (fun c => (c, OutEvent.userLeft "Anonymous" "lobby" 1)) :=
  ⟨(leave_nonmember_frame ⟨false, false⟩ nonMemberLeaveState 0 "lobby"
      (by decide) (by decide)).1,
   (leave_nonmember_frame ⟨false, false⟩ nonMemberLeaveState 0 "lobby"
      (by decide) (by decide)).2.2 [1] (by decide)⟩

/-- `leaveRoom` never touches `clientData`. -/
theorem leaveRoom_clientData (cfg : Config) (s : ServerState) (ws : Conn)
    (roomName : String) : (leaveRoom cfg s ws roomName).1.clientData = s.clientData := by
  unfold leaveRoom
  cases mapGet s.rooms roomName with
  | none => rfl
  | some clients =>
    by_cases h : (setDel clients ws).length = 0 <;> simp [h]

/-- `leaveRoom` never touches `userIdToSocket`. -/
theorem leaveRoom_userIdToSocket (cfg : Config) (s : ServerState) (ws : Conn)
    (roomName : String) :
    (leaveRoom cfg s ws roomName).1.userIdToSocket = s.userIdToSocket := by
  unfold leaveRoom
  cases mapGet s.rooms roomName with
  | none => rfl
  | some clients =>
    by_cases h : (setDel clients ws).length = 0 <;> simp [h]

/-- The state component of the close-time fold is the plain state fold. -/
theorem foldl_closeStep_fst (cfg : Config) (ws : Conn) (rs : List String)
    (acc : ServerState × List Output × List RelayPub) :
    (rs.foldl (closeStep cfg ws) acc).1 = leaveAll cfg ws acc.1 rs := by
  induction rs generalizing acc with
  | nil => rfl
  | cons r rest ih =>
    obtain ⟨s', o, p⟩ := acc
    simp only [List.foldl_cons, leaveAll, closeStep]
    exact ih _

/-- `leaveAll` changes neither `clientData` nor `userIdToSocket`. -/
theorem leaveAll_clientData_userIdToSocket (cfg : Config) (ws : Conn)
    (rs : List String) (s : ServerState) :
    (leaveAll cfg ws s rs).clientData = s.clientData ∧
    (leaveAll cfg ws s rs).userIdToSocket = s.userIdToSocket := by
  induction rs generalizing s with
  | nil => exact ⟨rfl, rfl⟩
  | cons r rest ih =>
    have h := ih (leaveRoom cfg s ws r).1
    simp only [leaveAll, List.foldl_cons] at h ⊢
    exact ⟨h.1.trans (leaveRoom_clientData cfg s ws r),
           h.2.trans (leaveRoom_userIdToSocket cfg s ws r)⟩

/-- C8 amended: the close handler removes the presence entry for the
closing connection's recorded userId unconditionally — `userIdToSocket`
maps that userId to nothing afterwards, even when a newer connection had
re-registered it. -/
theorem close_unregisters_by_userId (cfg : Config) (s : ServerState) (ws : Conn)
    (d : UserData) (h : mapGet s.clientData ws = some d) :
    mapGet (handleClose cfg s ws).1.userIdToSocket d.userId = none := by
  unfold handleClose
  simp only [foldl_closeStep_fst]
  obtain ⟨hcd, hus⟩ := leaveAll_clientData_userIdToSocket cfg ws
    ((mapGet s.clientRooms ws).getD []) s
  rw [hcd, h]
  simp

/-- Session for C8: connection 1 joins as `u1`, connection 2 re-joins as
`u1` (superseding it), then connection 1 closes. -/
def supersededCloseSteps : List SessionStep :=
  [.msg 1 (.join "alice" "u1" "general"), .msg 2 (.join "alice" "u1" "general"),
   .close 1]

/-- C8 counterexample: after the superseded connection 1 closes, `u1`'s
presence entry is gone — the claim requires it to still point at
connection 2. -/
theorem close_deletes_superseded_cex :
    mapGet (runSession ⟨false, false⟩ extPlain supersededCloseSteps
      initState).userIdToSocket "u1" = none ∧
    mapGet (runSession ⟨false, false⟩ extPlain supersededCloseSteps
      initState).userIdToSocket "u1" ≠ some 2 := by
  decide

/-- Witness for C8's amended statement: the same scenario, derived by
applying the amended theorem at the state just before the close. -/
theorem close_unregisters_by_userId_witness :
    mapGet (handleClose ⟨false, false⟩ (runSession ⟨false, false⟩ extPlain
      [.msg 1 (.join "alice" "u1" "general"), .msg 2 (.join "alice" "u1" "general")]
      initState) 1).1.userIdToSocket "u1" = none :=
  close_unregisters_by_userId ⟨false, false⟩ _ 1 ⟨"alice", "u1"⟩ (by decide)

/-- When no online recipient's socket fails, the fan-out loop processes
every recipient independently: it delivers to each online recipient,
collects the offline ones in order, and never aborts. -/
theorem groupFan_no_fail (sendFails : Conn → Bool) (uts : List (String × Conn))
    (fromId fromUsername groupName content : String) (l : List String)
    (hok : ∀ rid rsock, mapGet uts rid = some rsock → sendFails rsock = false) :
    groupFan sendFails uts fromId fromUsername groupName content l =
      (l.countP (fun rid => (mapGet uts rid).isSome),
       l.filter (fun rid => (mapGet uts rid).isNone),
       l.filterMap (fun rid => (mapGet uts rid).map
         (fun rsock =>
           ((rsock, OutEvent.groupMessageEvt fromId fromUsername groupName content) :
             Output))),
       false) := by
  induction l with
  | nil => rfl
  | cons rid rest ih =>
    cases hl : mapGet uts rid with
    | some rsock =>
      simp [groupFan, hl, hok rid rsock hl, ih, List.countP_cons, List.filter_cons]
    | none =>
      simp [groupFan, hl, ih, List.countP_cons, List.filter_cons]

/-- C9 amended (no-failure part): for an authenticated sender, a
non-empty recipient list, non-empty content and a successful store write,
when no delivery send throws, each recipient's outcome is independent —
every recipient with a presence entry receives the `group_message` event
and every absent recipient is collected — and the sender receives exactly
one acknowledgment carrying the delivered count, the offline count and
the offline recipient list.  (The counterexample shows the claim's other
disjunct — tolerance of a *send failure* — does not hold.) -/
theorem group_message_per_recipient (ext : Ext) (sendFails : Conn → Bool)
    (s : ServerState) (ws : Conn) (recipientIds : List String)
    (contentRaw groupName : String) (u : UserData)
    (hauth : mapGet s.clientData ws = some u)
    (hids : recipientIds ≠ []) (hcontent : jsTrim contentRaw ≠ "")
    (hsave : ext.saveOk = true)
    (hok : ∀ rid rsock, mapGet s.userIdToSocket rid = some rsock →
      sendFails rsock = false) :
    demoHandleGroupMessage ext sendFails s ws recipientIds contentRaw groupName =
      (s,
       recipientIds.filterMap (fun rid => (mapGet s.userIdToSocket rid).map
         (fun rsock =>
           ((rsock, OutEvent.groupMessageEvt u.userId u.username groupName
              (jsTrim contentRaw)) : Output)))
       ++ [(ws, .groupMessageSent groupName
             (recipientIds.countP (fun rid => (mapGet s.userIdToSocket rid).isSome))
             (recipientIds.filter (fun rid => (mapGet s.userIdToSocket rid).isNone)).length
             (recipientIds.filter (fun rid => (mapGet s.userIdToSocket rid).isNone)))]) := by
  have hlen : ¬ recipientIds.length = 0 :=
    fun h0 => hids (List.length_eq_zero.mp h0)
  have hfan := groupFan_no_fail sendFails s.userIdToSocket u.userId u.username
    groupName (jsTrim contentRaw) recipientIds hok
  simp [demoHandleGroupMessage, hauth, hlen, hcontent, hsave, hfan]

/-- Concrete state for C9: sender `alice` (conn 0); `r1` online at conn 1
and `r2` online at conn 2. -/
def groupSendState : ServerState :=
  { rooms := [], clientRooms := [], clientData := [(0, ⟨"alice", "u1"⟩)],
    userIdToSocket := [("r1", 1), ("r2", 2)], typingUsers := [] }

/-- C9 counterexample: when the send to the first recipient's socket
throws, the loop aborts — the second (online) recipient receives no
delivery attempt and the sender gets a generic `error` instead of the
acknowledgment, contradicting the claim's independence of outcomes. -/
theorem group_send_failure_aborts_cex :
    demoHandleGroupMessage extPlain (fun c => decide (c = 1)) groupSendState 0
      ["r1", "r2"] "hi" "g" =
      (groupSendState, [(0, .errorEvt "Failed to send group message")]) ∧
    ((demoHandleGroupMessage extPlain (fun c => decide (c = 1)) groupSendState 0
      ["r1", "r2"] "hi" "g").2.countP (fun o => o.1 = 2)) = 0 ∧
    ((demoHandleGroupMessage extPlain (fun c => decide (c = 1)) groupSendState 0
      ["r1", "r2"] "hi" "g").2.countP
        (fun o => match o.2 with | .groupMessageSent _ _ _ _ => true | _ => false)) = 0 := by
  decide

/-- Witness for C9's amended statement: both recipients online, no
failures — each receives the event and the ack reports 2 delivered,
0 offline. -/
theorem group_message_per_recipient_witness :
    demoHandleGroupMessage extPlain (fun _ => false) groupSendState 0
      ["r1", "r2"] "hi" "g" =
      (groupSendState,
       (["r1", "r2"].filterMap (fun rid =>
         (mapGet groupSendState.userIdToSocket rid).map
           (fun rsock =>
             ((rsock, OutEvent.groupMessageEvt "u1" "alice" "g" (jsTrim "hi")) :
               Output))))
       ++ [(0, .groupMessageSent "g"
             (["r1", "r2"].countP (fun rid =>
               (mapGet groupSendState.userIdToSocket rid).isSome))
             (["r1", "r2"].filter (fun rid =>
               (mapGet groupSendState.userIdToSocket rid).isNone)).length
             (["r1", "r2"].filter (fun rid =>
               (mapGet groupSendState.userIdToSocket rid).isNone)))]) :=
  group_message_per_recipient extPlain (fun _ => false) groupSendState 0
    ["r1", "r2"] "hi" "g" ⟨"alice", "u1"⟩ (by decide) (by decide) (by decide)
    (by decide) (fun _ _ _ => rfl)

/-! ### C5: rooms are never empty -/

/-- The spec's Room invariant: no room in the map has an empty member
set. -/
def noEmptyRooms (s : ServerState) : Prop :=
  ∀ n ms, mapGet s.rooms n = some ms → ms ≠ []

/-- The rooms map after `joinRoom`: the joined room holds its previous
members plus the joiner; every other room is untouched. -/
theorem joinRoom_rooms_mapGet (cfg : Config) (s : ServerState) (ws : Conn)
    (roomName username n : String) :
    mapGet (joinRoom cfg s ws roomName username).1.rooms n =
      if roomName = n then some (setAdd ((mapGet s.rooms roomName).getD []) ws)
      else mapGet s.rooms n := by
  simp only [joinRoom]
  by_cases hs : (mapGet s.rooms roomName).isSome
  · obtain ⟨cs, hcs⟩ := Option.isSome_iff_exists.mp hs
    by_cases hn : roomName = n
    · subst hn; simp [hs, hcs]
    · simp [hs, hcs, hn, mapGet_mapSet_ne _ _ _ _ hn]
  · have hnone : mapGet s.rooms roomName = none := Option.not_isSome_iff_eq_none.mp hs
    by_cases hn : roomName = n
    · subst hn; simp [hs, hnone]
    · simp [hs, hnone, hn, mapGet_mapSet_ne _ _ _ _ hn]

/-- `joinRoom` preserves the no-empty-rooms invariant. -/
theorem joinRoom_noEmpty (cfg : Config) (s : ServerState) (ws : Conn)
    (roomName username : String) (h : noEmptyRooms s) :
    noEmptyRooms (joinRoom cfg s ws roomName username).1 := by
  intro n ms hms
  rw [joinRoom_rooms_mapGet] at hms
  by_cases hn : roomName = n
  · rw [if_pos hn] at hms
    injection hms with hms
    exact hms ▸ setAdd_ne_nil _ _
  · rw [if_neg hn] at hms
    exact h n ms hms

/-- `leaveRoom` preserves the no-empty-rooms invariant. -/
theorem leaveRoom_noEmpty (cfg : Config) (s : ServerState) (ws : Conn)
    (roomName : String) (h : noEmptyRooms s) :
    noEmptyRooms (leaveRoom cfg s ws roomName).1 := by
  cases hr : mapGet s.rooms roomName with
  | none => simpa [leaveRoom, hr] using h
  | some clients =>
    by_cases h0 : (setDel clients ws).length = 0
    · intro n ms hms
      simp only [leaveRoom, hr, h0, if_pos h0, eq_self_iff_true, if_true] at hms
      by_cases hn : roomName = n
      · subst hn; rw [mapGet_mapDel_self] at hms; exact Option.noConfusion hms
      · rw [mapGet_mapDel_ne _ _ _ hn] at hms
        exact h n ms hms
    · intro n ms hms
      simp only [leaveRoom, hr, h0, if_neg h0, iff_false, if_false] at hms
      by_cases hn : roomName = n
      · subst hn
        rw [mapGet_mapSet_self] at hms
        injection hms with hms
        exact hms ▸ fun hnil => h0 (by rw [hnil]; rfl)
      · rw [mapGet_mapSet_ne _ _ _ _ hn] at hms
        exact h n ms hms

/-- The close-time cascade preserves the no-empty-rooms invariant. -/
theorem leaveAll_noEmpty (cfg : Config) (ws : Conn) (rs : List String)
    (s : ServerState) (h : noEmptyRooms s) : noEmptyRooms (leaveAll cfg ws s rs) := by
  induction rs generalizing s with
  | nil => exact h
  | cons r rest ih =>
    simp only [leaveAll, List.foldl_cons]
    have := ih (leaveRoom cfg s ws r).1 (leaveRoom_noEmpty cfg s ws r h)
    simpa [leaveAll] using this

/-- `handleClose` leaves the rooms map at the cascade's result. -/
theorem handleClose_rooms (cfg : Config) (s : ServerState) (ws : Conn) :
    (handleClose cfg s ws).1.rooms =
      (leaveAll cfg ws s ((mapGet s.clientRooms ws).getD [])).rooms := by
  unfold handleClose
  simp only [foldl_closeStep_fst]
  split <;> rfl

/-- `handleClose` leaves the clientRooms map at the cascade's result. -/
theorem handleClose_clientRooms (cfg : Config) (s : ServerState) (ws : Conn) :
    (handleClose cfg s ws).1.clientRooms =
      (leaveAll cfg ws s ((mapGet s.clientRooms ws).getD [])).clientRooms := by
  unfold handleClose
  simp only [foldl_closeStep_fst]
  split <;> rfl

/-- Every membership operation preserves the no-empty-rooms invariant. -/
theorem applyOp_noEmpty (cfg : Config) (s : ServerState) (op : Op)
    (h : noEmptyRooms s) : noEmptyRooms (applyOp cfg s op) := by
  cases op with
  | join ws room username => exact joinRoom_noEmpty cfg s ws room username h
  | leave ws room => exact leaveRoom_noEmpty cfg s ws room h
  | disconnect ws =>
    intro n ms hms
    rw [show (applyOp cfg s (.disconnect ws)).rooms = _ from
      handleClose_rooms cfg s ws] at hms
    exact leaveAll_noEmpty cfg ws _ s h n ms hms

/-- Key of a deleted binding is gone from the key list. -/
theorem not_mem_keys_mapDel [DecidableEq κ] (m : List (κ × β)) (k : κ) :
    k ∉ (mapDel m k).map Prod.fst := by
  intro hk
  obtain ⟨kv, hkv, hfst⟩ := List.mem_map.mp hk
  have hmem := List.mem_filter.mp hkv
  simp only [ne_eq, decide_not, Bool.not_eq_false', decide_eq_true_eq] at hmem
  exact absurd hfst (by simpa using hmem.2)

/-- `getRoomList` lists exactly the keys of the rooms map. -/
theorem getRoomList_keys (s : ServerState) :
    (getRoomList s).map Prod.fst = s.rooms.map Prod.fst := by
  simp [getRoomList, List.map_map]

/-- C5: in every state reachable from the initial state by join, leave
and disconnect operations, no room has an empty member set; and after a
further leave that removes a room's only member, the room is gone from
the map and `get_rooms` (`getRoomList`) no longer lists it. -/
theorem no_empty_rooms_reachable (cfg : Config) (ops : List Op) :
    (∀ n ms, mapGet (runOps cfg ops initState).rooms n = some ms → ms ≠ []) ∧
    (∀ c r, mapGet (runOps cfg ops initState).rooms r = some [c] →
      mapGet (runOps cfg (ops ++ [Op.leave c r]) initState).rooms r = none ∧
      r ∉ (getRoomList (runOps cfg (ops ++ [Op.leave c r]) initState)).map Prod.fst) := by
  have hinv : noEmptyRooms (runOps cfg ops initState) := by
    induction ops using List.reverseRecOn with
    | nil => intro n ms hms; exact Option.noConfusion hms
    | append_singleton ops op ih =>
      rw [runOps, List.foldl_append]
      exact applyOp_noEmpty cfg _ op ih
  refine ⟨hinv, ?_⟩
  intro c r hr
  have hrun : runOps cfg (ops ++ [Op.leave c r]) initState =
      (leaveRoom cfg (runOps cfg ops initState) c r).1 := by
    rw [runOps, List.foldl_append]; rfl
  have hdel : setDel [c] c = [] := by simp [setDel]
  have h0 : (setDel [c] c).length = 0 := by rw [hdel]; rfl
  have hrooms : (leaveRoom cfg (runOps cfg ops initState) c r).1.rooms =
      mapDel (runOps cfg ops initState).rooms r := by
    simp [leaveRoom, hr, h0]
  constructor
  · rw [hrun, hrooms, mapGet_mapDel_self]
  · rw [hrun, getRoomList_keys, hrooms]
    exact not_mem_keys_mapDel _ r

/-- Witness for C5: `alice` joins `general`, then leaves; the room is
non-empty while she is in it and gone afterwards. -/
theorem no_empty_rooms_reachable_witness :
    ([0] : List Conn) ≠ [] ∧
    mapGet (runOps ⟨false, false⟩ ([Op.join 0 "general" "alice"] ++
      [Op.leave 0 "general"]) initState).rooms "general" = none ∧
    "general" ∉ (getRoomList (runOps ⟨false, false⟩ ([Op.join 0 "general" "alice"] ++
      [Op.leave 0 "general"]) initState)).map Prod.fst :=
  ⟨(no_empty_rooms_reachable ⟨false, false⟩ [Op.join 0 "general" "alice"]).1
     "general" [0] (by decide),
   ((no_empty_rooms_reachable ⟨false, false⟩ [Op.join 0 "general" "alice"]).2
     0 "general" (by decide)).1,
   ((no_empty_rooms_reachable ⟨false, false⟩ [Op.join 0 "general" "alice"]).2
     0 "general" (by decide)).2⟩

/-! ### C10: room membership and per-connection tracking agree -/

/-- Connection `c` is in room `r`'s member set (an absent room has no
members). -/
def roomHasConn (s : ServerState) (r : String) (c : Conn) : Bool :=
  decide (c ∈ (mapGet s.rooms r).getD [])

/-- Room `r` is in connection `c`'s tracked set (`clientRooms`). -/
def clientTracksRoom (s : ServerState) (c : Conn) (r : String) : Bool :=
  decide (r ∈ (mapGet s.clientRooms c).getD [])

/-- The mutual-consistency invariant between `rooms` and `clientRooms`. -/
def MembershipInv (s : ServerState) : Prop :=
  ∀ c r, roomHasConn s r c = clientTracksRoom s c r

theorem decide_mem_setAdd_ne [DecidableEq α] (xs : List α) (x y : α) (h : y ≠ x) :
    decide (y ∈ setAdd xs x) = decide (y ∈ xs) :=
  decide_eq_decide.mpr (by simp [h])

theorem decide_mem_setDel_ne [DecidableEq α] (xs : List α) (x y : α) (h : y ≠ x) :
    decide (y ∈ setDel xs x) = decide (y ∈ xs) :=
  decide_eq_decide.mpr (by simp [h])

/-- The clientRooms map after `joinRoom`: the joiner's tracked set gains
the room; every other connection is untouched. -/
theorem joinRoom_clientRooms_mapGet (cfg : Config) (s : ServerState) (ws : Conn)
    (roomName username : String) (c : Conn) :
    mapGet (joinRoom cfg s ws roomName username).1.clientRooms c =
      if ws = c then some (setAdd ((mapGet s.clientRooms ws).getD []) roomName)
      else mapGet s.clientRooms c := by
  by_cases hc : ws = c
  · subst hc; simp [joinRoom]
  · simp [joinRoom, hc, mapGet_mapSet_ne _ _ _ _ hc]

/-- `joinRoom` preserves the membership invariant. -/
theorem joinRoom_membershipInv (cfg : Config) (s : ServerState) (ws : Conn)
    (roomName username : String) (h : MembershipInv s) :
    MembershipInv (joinRoom cfg s ws roomName username).1 := by
  intro c r
  unfold roomHasConn clientTracksRoom
  rw [joinRoom_rooms_mapGet, joinRoom_clientRooms_mapGet]
  by_cases hr : roomName = r <;> by_cases hc : ws = c
  · subst hr; subst hc
    simp only [if_pos rfl, Option.getD_some]
    simp
  · subst hr
    simp only [if_pos rfl, if_neg hc, Option.getD_some, eq_self_iff_true, if_true]
    rw [decide_mem_setAdd_ne _ _ _ (fun hcw => hc hcw.symm)]
    exact h c roomName
  · subst hc
    simp only [if_neg hr, if_pos rfl, Option.getD_some, eq_self_iff_true, if_true]
    rw [decide_mem_setAdd_ne _ _ _ (fun hrw => hr hrw.symm)]
    exact h ws r
  · simp only [if_neg hr, if_neg hc]
    exact h c r

/-- The rooms map of `leaveRoom` when the room exists. -/
theorem leaveRoom_rooms_of_some (cfg : Config) (s : ServerState) (ws : Conn)
    (roomName : String) (clients : List Conn)
    (hr : mapGet s.rooms roomName = some clients) :
    (leaveRoom cfg s ws roomName).1.rooms =
      if (setDel clients ws).length = 0 then mapDel s.rooms roomName
      else mapSet s.rooms roomName (setDel clients ws) := by
  by_cases h0 : (setDel clients ws).length = 0 <;> simp [leaveRoom, hr, h0]

/-- The clientRooms map of `leaveRoom` when the room exists. -/
theorem leaveRoom_clientRooms_of_some (cfg : Config) (s : ServerState) (ws : Conn)
    (roomName : String) (clients : List Conn)
    (hr : mapGet s.rooms roomName = some clients) :
    (leaveRoom cfg s ws roomName).1.clientRooms =
      match mapGet s.clientRooms ws with
      | none => s.clientRooms
      | some tracked => mapSet s.clientRooms ws (setDel tracked roomName) := by
  by_cases h0 : (setDel clients ws).length = 0 <;> simp [leaveRoom, hr, h0]

/-- The tracked set of the leaver after `leaveRoom` on an existing room:
the room is removed (an absent entry stays absent and empty). -/
theorem leaveRoom_trackedGetD (cfg : Config) (s : ServerState) (ws : Conn)
    (roomName : String) (clients : List Conn)
    (hr : mapGet s.rooms roomName = some clients) (c : Conn) :
    (mapGet (leaveRoom cfg s ws roomName).1.clientRooms c).getD [] =
      if ws = c then setDel ((mapGet s.clientRooms ws).getD []) roomName
      else (mapGet s.clientRooms c).getD [] := by
  rw [leaveRoom_clientRooms_of_some cfg s ws roomName clients hr]
  cases ht : mapGet s.clientRooms ws with
  | none =>
    by_cases hc : ws = c
    · subst hc; simp [ht, setDel]
    · simp [ht, hc]
  | some tracked =>
    by_cases hc : ws = c
    · subst hc; simp [ht]
    · simp [ht, hc, mapGet_mapSet_ne _ _ _ _ hc]

/-- The member set of a room after `leaveRoom` on an existing room. -/
theorem leaveRoom_roomsGetD (cfg : Config) (s : ServerState) (ws : Conn)
    (roomName : String) (clients : List Conn)
    (hr : mapGet s.rooms roomName = some clients) (r : String) :
    (mapGet (leaveRoom cfg s ws roomName).1.rooms r).getD [] =
      if roomName = r then setDel clients ws
      else (mapGet s.rooms r).getD [] := by
  rw [leaveRoom_rooms_of_some cfg s ws roomName clients hr]
  by_cases h0 : (setDel clients ws).length = 0
  · have hnil : setDel clients ws = [] := List.length_eq_zero.mp h0
    by_cases hn : roomName = r
    · subst hn; simp [h0, hnil]
    · simp [h0, hn]
  · by_cases hn : roomName = r
    · subst hn; simp [h0]
    · simp [h0, hn, mapGet_mapSet_ne _ _ _ _ hn]

/-- `leaveRoom` preserves the membership invariant. -/
theorem leaveRoom_membershipInv (cfg : Config) (s : ServerState) (ws : Conn)
    (roomName : String) (h : MembershipInv s) :
    MembershipInv (leaveRoom cfg s ws roomName).1 := by
  cases hrm : mapGet s.rooms roomName with
  | none => simpa [leaveRoom, hrm] using h
  | some clients =>
    intro c r
    unfold roomHasConn clientTracksRoom
    rw [leaveRoom_roomsGetD cfg s ws roomName clients hrm,
        leaveRoom_trackedGetD cfg s ws roomName clients hrm]
    by_cases hr : roomName = r <;> by_cases hc : ws = c
    · subst hr; subst hc; simp
    · subst hr
      simp only [if_pos rfl, if_neg hc, eq_self_iff_true, if_true]
      rw [decide_mem_setDel_ne _ _ _ (fun hcw => hc hcw.symm)]
      have := h c roomName
      unfold roomHasConn clientTracksRoom at this
      rwa [hrm] at this
    · subst hc
      simp only [if_neg hr, if_pos rfl, eq_self_iff_true, if_true]
      rw [decide_mem_setDel_ne _ _ _ (fun hrw => hr hrw.symm)]
      exact h ws r
    · simp only [if_neg hr, if_neg hc]
      exact h c r

/-- The membership invariant only reads `rooms` and `clientRooms`. -/
theorem membershipInv_of_fields (s' s'' : ServerState)
    (h1 : s'.rooms = s''.rooms) (h2 : s'.clientRooms = s''.clientRooms)
    (h : MembershipInv s'') : MembershipInv s' := by
  intro c r
  unfold roomHasConn clientTracksRoom
  rw [h1, h2]
  exact h c r

/-- The close-time cascade preserves the membership invariant. -/
theorem leaveAll_membershipInv (cfg : Config) (ws : Conn) (rs : List String)
    (s : ServerState) (h : MembershipInv s) :
    MembershipInv (leaveAll cfg ws s rs) := by
  induction rs generalizing s with
  | nil => exact h
  | cons r rest ih =>
    simp only [leaveAll, List.foldl_cons]
    have := ih (leaveRoom cfg s ws r).1 (leaveRoom_membershipInv cfg s ws r h)
    simpa [leaveAll] using this

/-- After cascading over a list covering the whole tracked set, the
tracked set is empty. -/
theorem leaveAll_tracked_empty (cfg : Config) (ws : Conn) :
    ∀ (L : List String) (s : ServerState), MembershipInv s →
      (mapGet s.clientRooms ws).getD [] ⊆ L →
      (mapGet (leaveAll cfg ws s L).clientRooms ws).getD [] = [] := by
  intro L
  induction L with
  | nil =>
    intro s _ hsub
    exact List.subset_nil.mp hsub
  | cons r rest ih =>
    intro s hinv hsub
    simp only [leaveAll, List.foldl_cons]
    have hstep : (mapGet (leaveRoom cfg s ws r).1.clientRooms ws).getD [] ⊆ rest := by
      cases hrm : mapGet s.rooms r with
      | none =>
        have hrn : r ∉ (mapGet s.clientRooms ws).getD [] := by
          intro hr
          have := hinv ws r
          unfold roomHasConn clientTracksRoom at this
          rw [hrm] at this
          simp at this
          exact this hr
        have : (leaveRoom cfg s ws r).1 = s := by simp [leaveRoom, hrm]
        rw [this]
        intro x hx
        rcases List.mem_cons.mp (hsub hx) with hxr | hxrest
        · exact absurd (hxr ▸ hx) hrn
        · exact hxrest
      | some clients =>
        rw [leaveRoom_trackedGetD cfg s ws r clients hrm ws, if_pos rfl]
        intro x hx
        rw [mem_setDel] at hx
        rcases List.mem_cons.mp (hsub hx.1) with hxr | hxrest
        · exact absurd hxr hx.2
        · exact hxrest
    have := ih (leaveRoom cfg s ws r).1
      (leaveRoom_membershipInv cfg s ws r hinv) hstep
    simpa [leaveAll] using this

/-- `handleClose` preserves the membership invariant. -/
theorem handleClose_membershipInv (cfg : Config) (s : ServerState) (ws : Conn)
    (h : MembershipInv s) : MembershipInv (handleClose cfg s ws).1 :=
  membershipInv_of_fields _ _ (handleClose_rooms cfg s ws)
    (handleClose_clientRooms cfg s ws)
    (leaveAll_membershipInv cfg ws _ s h)

/-- Every membership operation preserves the membership invariant. -/
theorem applyOp_membershipInv (cfg : Config) (s : ServerState) (op : Op)
    (h : MembershipInv s) : MembershipInv (applyOp cfg s op) := by
  cases op with
  | join ws room username => exact joinRoom_membershipInv cfg s ws room username h
  | leave ws room => exact leaveRoom_membershipInv cfg s ws room h
  | disconnect ws => exact handleClose_membershipInv cfg s ws h

/-- C10: in every state reachable by join, leave and disconnect
operations, a connection is in a room's member set exactly when the room
is in the connection's tracked set; consequently the close-time cascade,
which walks the tracked set, removes the connection from every room: after
a disconnect the connection is a member of no room. -/
theorem membership_consistency (cfg : Config) (ops : List Op) (c : Conn)
    (r : String) :
    roomHasConn (runOps cfg ops initState) r c =
      clientTracksRoom (runOps cfg ops initState) c r ∧
    roomHasConn (runOps cfg (ops ++ [Op.disconnect c]) initState) r c = false := by
  have hinv : MembershipInv (runOps cfg ops initState) := by
    induction ops using List.reverseRecOn with
    | nil => intro c' r'; rfl
    | append_singleton ops op ih =>
      rw [runOps, List.foldl_append]
      exact applyOp_membershipInv cfg _ op ih
  refine ⟨hinv c r, ?_⟩
  have hrun : runOps cfg (ops ++ [Op.disconnect c]) initState =
      (handleClose cfg (runOps cfg ops initState) c).1 := by
    rw [runOps, List.foldl_append]; rfl
  have htr : clientTracksRoom
      (handleClose cfg (runOps cfg ops initState) c).1 c r = false := by
    unfold clientTracksRoom
    rw [handleClose_clientRooms,
        leaveAll_tracked_empty cfg c _ _ hinv (List.Subset.refl _)]
    rfl
  have hinv' := handleClose_membershipInv cfg (runOps cfg ops initState) c hinv
  rw [hrun, hinv' c r, htr]

end WsChat
